import Mathlib

/-!
Verification of the subscription-manager web application.

The development shallowly embeds the application's calculation core:

* the JS `Date` normalization used by the two next-billing-date projectors
  (`calculateNextBillingDate` in the list screen, which anchors the start
  date to the billing day and repeatedly adds the frequency's month step,
  and the simpler variant that builds the date from today's year/month and
  the billing-day anchor alone);
* the create/edit submit handlers (amount validation, shared-cost split,
  monthly-equivalent normalization, and the row they send to the store);
* the dashboard aggregations (`getNextDueSubscription`,
  `calculateTotalSpending`);
* the Indian-grouping currency formatter `formatIndianCurrency`;
* the store schema's check constraints from the SQL migrations.

Numbers are embedded as `ℚ` (the scripts only ever manipulate decimal
amounts well inside the exact range of doubles), `parseFloat` results as
`Option ℚ` with `none` standing for `NaN`, and calendar dates as explicit
`(year, month, day)` records with JS's 0-based months and its field
normalization rules.
-/

namespace SubMgr

/-! ### Calendar model (JS `Date` normalization) -/

/-- A civil date: JS-style, `month` is 0-based (0 = January). -/
structure Date where
  year : ℤ
  month : ℤ
  day : ℤ
deriving DecidableEq

/-- Leap year as the Gregorian calendar (and JS `Date`) determine it. -/
def isLeapYear (y : ℤ) : Bool :=
  (y % 4 == 0 && y % 100 != 0) || (y % 400 == 0)

/-- Days in a (0-based) month.  Months other than 0..11 do not occur for
normalized dates; the function is total and stays in `[28, 31]`. -/
def daysInMonth (y m : ℤ) : ℤ :=
  if m = 1 then (if isLeapYear y then 29 else 28)
  else if m = 3 ∨ m = 5 ∨ m = 8 ∨ m = 10 then 30
  else 31

/-- Linear month index `year * 12 + month`; JS timestamp order on midnights
is lexicographic in `(monthIdx, day)` for normalized dates. -/
def monthIdx (d : Date) : ℤ := d.year * 12 + d.month

/-- The date with linear month index `i` and day-of-month `d`. -/
def mkIdxDate (i d : ℤ) : Date := ⟨i / 12, i % 12, d⟩

/-- Days in the month with linear index `i`. -/
def dimIdx (i : ℤ) : ℤ := daysInMonth (i / 12) (i % 12)

/-- JS `Date` field normalization for `new Date(y, m, d)` / `setDate` /
`setMonth`: the month overflows into the year, and a day beyond the end of
the month rolls into the following month.  The application only ever
supplies days in `1..31`, for which a single rollover step is exact. -/
def mkDate (y m d : ℤ) : Date :=
  if d ≤ dimIdx (y * 12 + m) then mkIdxDate (y * 12 + m) d
  else mkIdxDate (y * 12 + m + 1) (d - dimIdx (y * 12 + m))

/-- An instant: a civil date plus the milliseconds elapsed inside it
(`new Date()` carries a time of day; midnights have `ms = 0`). -/
structure Instant where
  date : Date
  ms : ℕ
deriving DecidableEq

/-- Timestamp order on midnights: strict. -/
def dateLt (a b : Date) : Prop :=
  monthIdx a < monthIdx b ∨ (monthIdx a = monthIdx b ∧ a.day < b.day)

/-- `midnight(d).getTime() ≤ t.getTime()`: the midnight of `d` is not after
the instant `t` (its `ms ≥ 0`). -/
def midnightLe (d : Date) (t : Instant) : Prop :=
  monthIdx d < monthIdx t.date ∨ (monthIdx d = monthIdx t.date ∧ d.day ≤ t.date.day)

/-- `midnight(d).getTime() < t.getTime()`. -/
def midnightLt (d : Date) (t : Instant) : Prop :=
  monthIdx d < monthIdx t.date ∨
    (monthIdx d = monthIdx t.date ∧
      (d.day < t.date.day ∨ (d.day = t.date.day ∧ 0 < t.ms)))

instance (a b : Date) : Decidable (dateLt a b) := by unfold dateLt; infer_instance

instance (d : Date) (t : Instant) : Decidable (midnightLe d t) := by
  unfold midnightLe; infer_instance

instance (d : Date) (t : Instant) : Decidable (midnightLt d t) := by
  unfold midnightLt; infer_instance

theorem daysInMonth_bounds (y m : ℤ) :
    28 ≤ daysInMonth y m ∧ daysInMonth y m ≤ 31 := by
  unfold daysInMonth
  split
  · split <;> omega
  · split <;> omega

theorem dimIdx_bounds (i : ℤ) : 28 ≤ dimIdx i ∧ dimIdx i ≤ 31 :=
  daysInMonth_bounds _ _

theorem monthIdx_mkIdxDate (i d : ℤ) : monthIdx (mkIdxDate i d) = i := by
  simp only [monthIdx, mkIdxDate]
  omega

theorem mkDate_monthIdx (y m d : ℤ) :
    monthIdx (mkDate y m d) = y * 12 + m ∨ monthIdx (mkDate y m d) = y * 12 + m + 1 := by
  unfold mkDate
  split
  · exact Or.inl (monthIdx_mkIdxDate _ _)
  · exact Or.inr (monthIdx_mkIdxDate _ _)

theorem mkDate_day_bounds (y m : ℤ) {d : ℤ} (h1 : 1 ≤ d) (h31 : d ≤ 31) :
    1 ≤ (mkDate y m d).day ∧ (mkDate y m d).day ≤ 31 := by
  unfold mkDate
  have hb := dimIdx_bounds (y * 12 + m)
  split
  · exact ⟨h1, h31⟩
  · simp only [mkIdxDate]
    omega

theorem mkDate_month_range (y m d : ℤ) :
    0 ≤ (mkDate y m d).month ∧ (mkDate y m d).month < 12 := by
  unfold mkDate mkIdxDate
  split <;> simp only <;> omega

/-- When the requested day fits inside the target month (in particular
whenever `d ≤ 28`), no rollover happens. -/
theorem mkDate_of_le (y m d : ℤ) (h : d ≤ dimIdx (y * 12 + m)) :
    mkDate y m d = mkIdxDate (y * 12 + m) d := by
  unfold mkDate
  rw [if_pos h]

theorem mkDate_of_day_le_28 (y m d : ℤ) (h : d ≤ 28) :
    mkDate y m d = mkIdxDate (y * 12 + m) d :=
  mkDate_of_le y m d (le_trans h (dimIdx_bounds _).1)

theorem not_midnightLe (d : Date) (t : Instant) :
    ¬ midnightLe d t ↔ dateLt t.date d := by
  unfold midnightLe dateLt
  constructor
  · intro h
    omega
  · intro h
    omega

/-- A date with a normalized month field is recovered from its linear month
index and day. -/
theorem date_eta {dt : Date} (h0 : 0 ≤ dt.month) (h12 : dt.month < 12) :
    dt = mkIdxDate (monthIdx dt) dt.day := by
  obtain ⟨y, m, d⟩ := dt
  simp only [mkIdxDate, monthIdx, Date.mk.injEq] at *
  refine ⟨?_, ?_, trivial⟩ <;> omega

theorem midnightLe_imp_monthIdx_le {d : Date} {t : Instant} (h : midnightLe d t) :
    monthIdx d ≤ monthIdx t.date := by
  unfold midnightLe at h
  omega

/-! ### Subscriptions and the next-billing-date projectors -/

/-- The `Subscription` interface shared by the list screens. -/
structure Subscription where
  id : String
  name : String
  amount : ℚ
  actual_amount : ℚ
  billing_frequency : String
  start_date : Date
  billing_date : ℤ
  category : String
  reminder_days : ℤ
deriving DecidableEq

/-- The `frequencyMonths` lookup of the list screen's
`calculateNextBillingDate`: monthly maps to 1, quarterly to 3,
half-yearly to 6, yearly to 12, and any other tag falls back to 1
(the `|| 1` default). -/
def frequencyMonths (bf : String) : ℤ :=
  if bf = "monthly" then 1
  else if bf = "quarterly" then 3
  else if bf = "half-yearly" then 6
  else if bf = "yearly" then 12
  else 1

theorem frequencyMonths_pos (bf : String) : 1 ≤ frequencyMonths bf := by
  unfold frequencyMonths
  split
  · omega
  · split
    · omega
    · split
      · omega
      · split <;> omega

/-- `nextBilling.setMonth(nextBilling.getMonth() + k)`. -/
def addMonths (dt : Date) (k : ℤ) : Date := mkDate dt.year (dt.month + k) dt.day

/-- The `while (nextBilling <= today)` loop of `calculateNextBillingDate`,
made structural on a fuel argument; the caller passes enough fuel for the
loop to run to completion (see `billingLoop_exit` / `billingLoop_future`). -/
def billingLoop : ℕ → ℤ → Instant → Date → Date
  | 0, _, _, nb => nb
  | fuel + 1, fm, today, nb =>
    if midnightLe nb today then billingLoop fuel fm today (addMonths nb fm) else nb

/-- Months between the current billing candidate and today, plus slack:
an upper bound on the number of loop iterations. -/
def fuelFor (today : Instant) (nb : Date) : ℕ :=
  (monthIdx today.date + 2 - monthIdx nb).toNat

/-- The list screen's `calculateNextBillingDate(subscription)`: anchor the
start date to the billing day (`setDate(billing_date)`), then add the
frequency's month step until the date is strictly in the future. -/
def calculateNextBillingDate (sub : Subscription) (today : Instant) : Date :=
  billingLoop (fuelFor today (mkDate sub.start_date.year sub.start_date.month sub.billing_date))
    (frequencyMonths sub.billing_frequency) today
    (mkDate sub.start_date.year sub.start_date.month sub.billing_date)

/-- The dashboard variant `calculateNextBillingDate(billingDate)`: build
the date from today's year and month and the billing-day anchor, and move
to the next month only when that date is strictly before now. -/
def homeCalculateNextBillingDate (billingDate : ℤ) (today : Instant) : Date :=
  if midnightLt (mkDate today.date.year today.date.month billingDate) today then
    mkDate today.date.year (today.date.month + 1) billingDate
  else mkDate today.date.year today.date.month billingDate

theorem addMonths_monthIdx (dt : Date) (k : ℤ) :
    monthIdx (addMonths dt k) = monthIdx dt + k ∨
      monthIdx (addMonths dt k) = monthIdx dt + k + 1 := by
  unfold addMonths
  have h := mkDate_monthIdx dt.year (dt.month + k) dt.day
  unfold monthIdx at *
  omega

theorem addMonths_day_bounds (dt : Date) (k : ℤ) (h1 : 1 ≤ dt.day) (h31 : dt.day ≤ 31) :
    1 ≤ (addMonths dt k).day ∧ (addMonths dt k).day ≤ 31 :=
  mkDate_day_bounds _ _ h1 h31

/-- A day at most 28 survives `setMonth` unchanged (every month has at
least 28 days, so no rollover happens). -/
theorem addMonths_day_le_28 (dt : Date) (k : ℤ) (h : dt.day ≤ 28) :
    addMonths dt k = mkIdxDate (monthIdx dt + k) dt.day ∧ (addMonths dt k).day = dt.day := by
  unfold addMonths
  rw [mkDate_of_day_le_28 _ _ _ h]
  constructor
  · unfold monthIdx
    ring_nf
  · rfl

theorem billingLoop_exit {fuel : ℕ} {fm : ℤ} {today : Instant} {nb : Date}
    (h : ¬ midnightLe nb today) (hf : 1 ≤ fuel) :
    billingLoop fuel fm today nb = nb := by
  cases fuel with
  | zero => omega
  | succ n =>
    unfold billingLoop
    rw [if_neg h]

/-- When started with sufficient fuel, the loop terminates on a date
strictly after today (the loop only stops when `nextBilling > today`, and
each step moves the candidate at least one month forward). -/
theorem billingLoop_future :
    ∀ (fuel : ℕ) (fm : ℤ) (today : Instant) (nb : Date),
      1 ≤ fm → 1 ≤ nb.day → nb.day ≤ 31 →
      monthIdx today.date + 2 - monthIdx nb ≤ (fuel : ℤ) →
      dateLt today.date (billingLoop fuel fm today nb) := by
  intro fuel
  induction fuel with
  | zero =>
    intro fm today nb _ _ _ hsuf
    have h2 : monthIdx today.date + 2 ≤ monthIdx nb := by
      simpa using hsuf
    unfold billingLoop dateLt
    omega
  | succ n ih =>
    intro fm today nb hfm hd1 hd31 hsuf
    unfold billingLoop
    split
    · rename_i hle
      have hidx := midnightLe_imp_monthIdx_le hle
      have hadd := addMonths_monthIdx nb fm
      have hday := addMonths_day_bounds nb fm hd1 hd31
      exact ih fm today (addMonths nb fm) hfm hday.1 hday.2 (by push_cast at hsuf ⊢; omega)
    · rename_i hgt
      exact (not_midnightLe nb today).mp hgt

/-- A billing-day anchor of at most 28 is preserved by every loop step. -/
theorem billingLoop_day :
    ∀ (fuel : ℕ) (fm : ℤ) (today : Instant) (nb : Date),
      nb.day ≤ 28 → (billingLoop fuel fm today nb).day = nb.day := by
  intro fuel
  induction fuel with
  | zero =>
    intro fm today nb _
    rfl
  | succ n ih =>
    intro fm today nb hd
    unfold billingLoop
    split
    · have h := addMonths_day_le_28 nb fm hd
      rw [ih fm today (addMonths nb fm) (by rw [h.2]; exact hd), h.2]
    · rfl

/-- Characterization of the loop for a monthly step and an anchor of at
most 28: starting from an anchored candidate no later than today's month,
it lands on the anchor day of the current month when that is still
strictly in the future, and on the anchor day of the next month
otherwise. -/
theorem billingLoop_monthly :
    ∀ (fuel : ℕ) (today : Instant) (nb : Date) (A : ℤ),
      nb.day = A → 1 ≤ A → A ≤ 28 → 0 ≤ nb.month → nb.month < 12 →
      monthIdx nb ≤ monthIdx today.date →
      monthIdx today.date + 2 - monthIdx nb ≤ (fuel : ℤ) →
      billingLoop fuel 1 today nb =
        (if today.date.day < A then mkIdxDate (monthIdx today.date) A
          else mkIdxDate (monthIdx today.date + 1) A) := by
  intro fuel
  induction fuel with
  | zero =>
    intro today nb A hdA h1 h28 hm0 hm12 hle hsuf
    exfalso
    push_cast at hsuf
    omega
  | succ n ih =>
    intro today nb A hdA h1 h28 hm0 hm12 hle hsuf
    unfold billingLoop
    by_cases hg : midnightLe nb today
    · rw [if_pos hg]
      have hstep := addMonths_day_le_28 nb 1 (by omega)
      rw [hstep.1]
      by_cases hidx : monthIdx nb = monthIdx today.date
      · have hAle : A ≤ today.date.day := by
          unfold midnightLe at hg
          omega
        rw [billingLoop_exit ?_ ?_]
        · rw [if_neg (by omega), hdA, hidx]
        · unfold midnightLe
          rw [monthIdx_mkIdxDate]
          omega
        · push_cast at hsuf
          omega
      · have hlt : monthIdx nb < monthIdx today.date := lt_of_le_of_ne hle hidx
        rw [ih today (mkIdxDate (monthIdx nb + 1) nb.day) A hdA h1 h28 ?_ ?_ ?_ ?_]
        · simp only [mkIdxDate]
          omega
        · simp only [mkIdxDate]
          omega
        · rw [monthIdx_mkIdxDate]
          omega
        · rw [monthIdx_mkIdxDate]
          push_cast at hsuf ⊢
          omega
    · rw [if_neg hg]
      have hd := (not_midnightLe nb today).mp hg
      unfold dateLt at hd
      have hidx : monthIdx nb = monthIdx today.date := by omega
      have hday : today.date.day < A := by omega
      rw [if_pos hday, ← hdA, ← hidx]
      exact date_eta hm0 hm12

/-! ### Create / edit submit handlers -/

/-- An entry of the `billingFrequencies` array shared by the add and edit
screens. -/
structure Frequency where
  id : String
  label : String
  months : ℚ
deriving DecidableEq

/-- `billingFrequencies` from `AddSubscription` / `EditSubscription`. -/
def billingFrequencies : List Frequency :=
  [⟨"monthly", "Monthly", 1⟩, ⟨"quarterly", "Quarterly", 3⟩,
   ⟨"half-yearly", "Half Yearly", 6⟩, ⟨"yearly", "Yearly", 12⟩]

/-- The form state of the add/edit screens, with the text fields already
put through their JS parsers: `amount`/`totalAmount` hold the `parseFloat`
result (`none` standing for `NaN`, e.g. on non-numeric text), `startDate`
is `none` for the empty string, and `sharedWith` holds the `parseInt`
result. -/
structure FormData where
  name : String
  amount : Option ℚ
  startDate : Option Date
  billingFrequency : String
  billingDate : ℤ
  category : String
  reminderDays : ℤ
  isShared : Bool
  totalAmount : Option ℚ
  sharedWith : ℤ
deriving DecidableEq

/-- `parseFloat(formData.isShared ? formData.totalAmount : formData.amount)`. -/
def parsedInputAmount (fd : FormData) : Option ℚ :=
  if fd.isShared then fd.totalAmount else fd.amount

/-- The row the create handler sends to the `subscriptions` table. -/
structure SubscriptionRow where
  user_id : String
  name : String
  amount : ℚ
  actual_amount : ℚ
  billing_frequency : String
  start_date : Option Date
  billing_date : ℤ
  category : String
  reminder_days : ℤ
  is_shared : Bool
  total_amount : Option ℚ
  shared_with : Option ℤ
deriving DecidableEq

/-- The column values the edit handler sends with its update (the edit
screen writes no `user_id` and performs no start-date check). -/
structure EditData where
  name : String
  amount : ℚ
  actual_amount : ℚ
  billing_frequency : String
  start_date : Option Date
  billing_date : ℤ
  category : String
  reminder_days : ℤ
  is_shared : Bool
  total_amount : Option ℚ
  shared_with : Option ℤ
deriving DecidableEq

/-- `handleSubmit` of `AddSubscription` up to the store call: validate the
amount, split a shared total by the participant count, validate the start
date, map the frequency to its month count, normalize to the monthly
equivalent, and assemble the row to insert.  Errors are the thrown
validation messages. -/
def addHandleSubmit (uid : String) (fd : FormData) : Except String SubscriptionRow :=
  match parsedInputAmount fd with
  | none => .error "Please enter a valid amount"
  | some inputAmount =>
    if inputAmount ≤ 0 then .error "Please enter a valid amount"
    else
      match fd.startDate with
      | none => .error "Please select a start date"
      | some sd =>
        match billingFrequencies.find? (fun f => f.id == fd.billingFrequency) with
        | none => .error "Invalid billing frequency"
        | some frequency =>
          .ok { user_id := uid
                name := fd.name.trim
                amount := (if fd.isShared then inputAmount / (fd.sharedWith : ℚ) else inputAmount)
                  / frequency.months
                actual_amount := if fd.isShared then inputAmount / (fd.sharedWith : ℚ) else inputAmount
                billing_frequency := fd.billingFrequency
                start_date := some sd
                billing_date := fd.billingDate
                category := fd.category
                reminder_days := fd.reminderDays
                is_shared := fd.isShared
                total_amount := if fd.isShared then some inputAmount else none
                shared_with := if fd.isShared then some fd.sharedWith else none }

/-- `handleSubmit` of `EditSubscription` up to the store call: same
normalization, no start-date validation, and no `user_id` column. -/
def editHandleSubmit (fd : FormData) : Except String EditData :=
  match parsedInputAmount fd with
  | none => .error "Please enter a valid amount"
  | some inputAmount =>
    if inputAmount ≤ 0 then .error "Please enter a valid amount"
    else
      match billingFrequencies.find? (fun f => f.id == fd.billingFrequency) with
      | none => .error "Invalid billing frequency"
      | some frequency =>
        .ok { name := fd.name.trim
              amount := (if fd.isShared then inputAmount / (fd.sharedWith : ℚ) else inputAmount)
                / frequency.months
              actual_amount := if fd.isShared then inputAmount / (fd.sharedWith : ℚ) else inputAmount
              billing_frequency := fd.billingFrequency
              start_date := fd.startDate
              billing_date := fd.billingDate
              category := fd.category
              reminder_days := fd.reminderDays
              is_shared := fd.isShared
              total_amount := if fd.isShared then some inputAmount else none
              shared_with := if fd.isShared then some fd.sharedWith else none }

/-- The insert issued by the create screen: on validation failure the
handler throws before any request, so the stored list is untouched. -/
def submitAddStore (store : List SubscriptionRow) (uid : String) (fd : FormData) :
    Except String (List SubscriptionRow) :=
  match addHandleSubmit uid fd with
  | .error e => .error e
  | .ok row => .ok (store ++ [row])

/-- Overwrite a stored row's mutable columns with an update payload
(`UPDATE subscriptions SET ... WHERE id = target`). -/
def applyEdit (row : SubscriptionRow) (e : EditData) : SubscriptionRow :=
  { row with
    name := e.name
    amount := e.amount
    actual_amount := e.actual_amount
    billing_frequency := e.billing_frequency
    start_date := e.start_date
    billing_date := e.billing_date
    category := e.category
    reminder_days := e.reminder_days
    is_shared := e.is_shared
    total_amount := e.total_amount
    shared_with := e.shared_with }

/-- The update issued by the edit screen, keyed by row id: on validation
failure the handler throws before any request. -/
def submitEditStore (store : List (ℕ × SubscriptionRow)) (target : ℕ) (fd : FormData) :
    Except String (List (ℕ × SubscriptionRow)) :=
  match editHandleSubmit fd with
  | .error e => .error e
  | .ok ed => .ok (store.map fun p => if p.1 = target then (p.1, applyEdit p.2 ed) else p)

/-- The only `CHECK` constraint the migrations place on a subscription row
is `billing_date BETWEEN 1 AND 31`; the `shared_with` column is added as a
bare nullable `integer` with no constraint. -/
def rowSatisfiesSchema (r : SubscriptionRow) : Prop :=
  1 ≤ r.billing_date ∧ r.billing_date ≤ 31

/-! ### Dashboard aggregations -/

/-- The monthly/yearly totals the dashboard derives on every read. -/
structure Spending where
  monthly : ℚ
  yearly : ℚ
deriving DecidableEq

/-- `calculateTotalSpending`: fold the monthly-equivalent amounts, and
multiply by 12 for the yearly figure. -/
def calculateTotalSpending (subs : List Subscription) : Spending :=
  { monthly := subs.foldl (fun sum sub => sum + sub.amount) 0
    yearly := subs.foldl (fun sum sub => sum + sub.amount) 0 * 12 }

/-- Pseudo-timestamp for sorting projected dates: strictly monotone in the
JS timestamp order on normalized dates (day-of-month stays below 32), so
the comparator `a.nextBilling.getTime() - b.nextBilling.getTime()` orders
exactly like this key. -/
def dateKey (d : Date) : ℤ := monthIdx d * 32 + d.day

/-- JS `Array.prototype.sort` with an ascending comparator: a stable
comparison sort, modeled by insertion sort on the key. -/
def sortByKey {α : Type} (key : α → ℤ) (l : List α) : List α :=
  l.insertionSort (fun a b => key a ≤ key b)

/-- `getNextDueSubscription` of the list screen: project a next-billing
date for each subscription, sort ascending by it, and return the first
entry; `null` when there are no subscriptions. -/
def getNextDueSubscription (subs : List Subscription) (today : Instant) :
    Option (Subscription × Date) :=
  match subs with
  | [] => none
  | _ :: _ =>
    (sortByKey (fun p => dateKey p.2)
      (subs.map fun s => (s, calculateNextBillingDate s today))).head?

/-- `getNextDueSubscription` of the dashboard screen: same shape, over the
anchor-only projector. -/
def homeGetNextDueSubscription (subs : List Subscription) (today : Instant) :
    Option (Subscription × Date) :=
  match subs with
  | [] => none
  | _ :: _ =>
    (sortByKey (fun p => dateKey p.2)
      (subs.map fun s => (s, homeCalculateNextBillingDate s.billing_date today))).head?

/-! ### Indian currency formatter -/

/-- Insert a comma after every second digit of a reversed digit list:
the `\B(?=(\d\d)+(?!\d))` replacement on the non-last-three digits. -/
def groupTwosRev : List Char → List Char
  | a :: b :: c :: rest => a :: b :: ',' :: groupTwosRev (c :: rest)
  | l => l

/-- Render a two-digit decimal part (`00`..`99`). -/
def twoDigits (n : ℤ) : String :=
  (if n < 10 then "0" else "") ++ toString n

/-- `formatIndianCurrency`: `null`/`NaN` guard (`none` here), round to two
decimals (`toFixed(2)`; exact on all amounts the claims touch), split off
the last three integer digits, group the rest in twos, join with commas
and prefix the rupee sign. -/
def formatIndianCurrency (amount : Option ℚ) : String :=
  match amount with
  | none => "₹0.00"
  | some q =>
    let cents : ℤ := ⌊q * 100 + 1 / 2⌋
    let ws : List Char := (toString (cents / 100)).data
    let lastThree := ws.drop (ws.length - 3)
    let otherNumbers := ws.take (ws.length - 3)
    let formattedWholePart :=
      if otherNumbers.isEmpty then lastThree
      else (groupTwosRev otherNumbers.reverse).reverse ++ [','] ++ lastThree
    "₹" ++ String.mk formattedWholePart ++ "." ++ twoDigits (cents % 100)

/-! ### Claims -/

theorem foldl_add_amount (subs : List Subscription) (init : ℚ) :
    subs.foldl (fun sum sub => sum + sub.amount) init =
      init + (subs.map (fun s => s.amount)).sum := by
  induction subs generalizing init with
  | nil => simp
  | cons s rest ih =>
    simp only [List.foldl_cons, List.map_cons, List.sum_cons, ih]
    ring

/-- Claim C7: for every subscription list the dashboard's spending
computation returns monthly spending equal to the sum of the
monthly-equivalent amounts and yearly spending equal to exactly 12 times
that sum; for the empty list both are 0. -/
theorem claim7_total_spending (subs : List Subscription) :
    (calculateTotalSpending subs).monthly = (subs.map (fun s => s.amount)).sum ∧
    (calculateTotalSpending subs).yearly = 12 * (subs.map (fun s => s.amount)).sum ∧
    (calculateTotalSpending []).monthly = 0 ∧ (calculateTotalSpending []).yearly = 0 := by
  unfold calculateTotalSpending
  refine ⟨by simp [foldl_add_amount], ?_, by simp, by simp⟩
  simp [foldl_add_amount]
  ring

/-- Claim C8: the currency formatter renders 1234567.5 as
"₹12,34,567.50", with Indian digit grouping (last three integer digits,
then groups of two) and exactly two decimal places. -/
theorem claim8_format_indian_currency :
    formatIndianCurrency (some 1234567.5) = "₹12,34,567.50" := by
  with_unfolding_all rfl

/-- Sample for the rollover claim: a monthly subscription anchored on
day 31 whose start month (April 2025) has only 30 days. -/
def c5sub : Subscription :=
  ⟨"s5", "Sub5", 10, 10, "monthly", ⟨2025, 3, 15⟩, 31, "Other", 3⟩

def c5today : Instant := ⟨⟨2025, 3, 20⟩, 0⟩

/-- Claim C5: an anchor exceeding the length of the target month rolls
over into the following month by the date normalization rules (day 31 in a
30-day month becomes day 1 of the next month, not the clamped last day),
and the next-billing-date projection inherits this: the day-31 anchor in
April 2025 projects to May 1, 2025. -/
theorem claim5_anchor_rollover :
    (∀ y m a : ℤ, 0 ≤ m → m < 12 → daysInMonth y m < a → a ≤ 31 →
      monthIdx (mkDate y m a) = y * 12 + m + 1 ∧
      (mkDate y m a).day = a - daysInMonth y m ∧
      (daysInMonth y m = 30 → a = 31 → (mkDate y m a).day = 1)) ∧
    calculateNextBillingDate c5sub c5today = ⟨2025, 4, 1⟩ := by
  constructor
  · intro y m a hm0 hm12 hroll h31
    have hy : (y * 12 + m) / 12 = y := by omega
    have hm : (y * 12 + m) % 12 = m := by omega
    have hdim : dimIdx (y * 12 + m) = daysInMonth y m := by
      unfold dimIdx
      rw [hy, hm]
    unfold mkDate
    rw [hdim, if_neg (by omega)]
    refine ⟨monthIdx_mkIdxDate _ _, rfl, ?_⟩
    intro h30 ha
    simp only [mkIdxDate]
    omega
  · with_unfolding_all rfl

theorem claim5_anchor_rollover_witness :
    monthIdx (mkDate 2025 3 31) = 2025 * 12 + 3 + 1 ∧
    (mkDate 2025 3 31).day = 31 - daysInMonth 2025 3 ∧
    (daysInMonth 2025 3 = 30 → (31 : ℤ) = 31 → (mkDate 2025 3 31).day = 1) := by
  have h := claim5_anchor_rollover.1 2025 3 31 (by norm_num) (by norm_num)
    (by decide) (by norm_num)
  exact ⟨h.1, h.2.1, fun h30 _ => h.2.2 h30 rfl⟩

/-- Claim C4: for every subscription with a billing-day anchor in 1..31,
the list screen's projection yields a date strictly after today (it keeps
adding the frequency's month step while the candidate is not in the
future), and when the anchor is at most 28 (so no calendar rollover can
apply) the projected day-of-month equals the anchor. -/
theorem claim4_next_billing_future (sub : Subscription) (today : Instant)
    (h1 : 1 ≤ sub.billing_date) (h31 : sub.billing_date ≤ 31) :
    dateLt today.date (calculateNextBillingDate sub today) ∧
    (sub.billing_date ≤ 28 →
      (calculateNextBillingDate sub today).day = sub.billing_date) := by
  unfold calculateNextBillingDate
  have hday := mkDate_day_bounds sub.start_date.year sub.start_date.month h1 h31
  constructor
  · exact billingLoop_future _ _ today _ (frequencyMonths_pos _) hday.1 hday.2
      (by unfold fuelFor; exact Int.self_le_toNat _)
  · intro h28
    have hnb : (mkDate sub.start_date.year sub.start_date.month sub.billing_date).day
        = sub.billing_date := by
      rw [mkDate_of_day_le_28 _ _ _ h28]
      rfl
    rw [billingLoop_day _ _ _ _ (by rw [hnb]; exact h28), hnb]

theorem claim4_next_billing_future_witness :
    dateLt c5today.date (calculateNextBillingDate ⟨"s4", "Sub4", 10, 10, "monthly",
        ⟨2025, 0, 15⟩, 15, "Other", 3⟩ c5today) ∧
    ((15 : ℤ) ≤ 28 →
      (calculateNextBillingDate ⟨"s4", "Sub4", 10, 10, "monthly",
        ⟨2025, 0, 15⟩, 15, "Other", 3⟩ c5today).day = 15) :=
  claim4_next_billing_future _ c5today (by norm_num) (by norm_num)

/-- Claim C1: for every positive input amount, recognized frequency tag,
and (when shared) participant count, the create handler succeeds and
stores the per-period actual amount as the input (or input divided by the
participant count when shared) and the monthly equivalent as the actual
amount divided by 1, 3, 6 or 12 months respectively. -/
theorem claim1_normalizer (uid : String) (fd : FormData) (a : ℚ) (sd : Date)
    (hpa : parsedInputAmount fd = some a) (ha : 0 < a) (hsd : fd.startDate = some sd)
    (hbf : fd.billingFrequency = "monthly" ∨ fd.billingFrequency = "quarterly" ∨
      fd.billingFrequency = "half-yearly" ∨ fd.billingFrequency = "yearly") :
    ∃ row, addHandleSubmit uid fd = .ok row ∧
      row.actual_amount = (if fd.isShared then a / (fd.sharedWith : ℚ) else a) ∧
      row.amount = row.actual_amount /
        (if fd.billingFrequency = "monthly" then 1
          else if fd.billingFrequency = "quarterly" then 3
          else if fd.billingFrequency = "half-yearly" then 6 else 12) := by
  unfold addHandleSubmit
  simp only [hpa, hsd]
  rw [if_neg (not_le.mpr ha)]
  rcases hbf with h | h | h | h <;> rw [h]
  · rw [show billingFrequencies.find? (fun f => f.id == "monthly")
        = some ⟨"monthly", "Monthly", 1⟩ from rfl]
    rw [if_pos (show ("monthly" : String) = "monthly" from rfl)]
    exact ⟨_, rfl, rfl, rfl⟩
  · rw [show billingFrequencies.find? (fun f => f.id == "quarterly")
        = some ⟨"quarterly", "Quarterly", 3⟩ from rfl]
    rw [if_neg (show ¬ (("quarterly" : String) = "monthly") by decide),
      if_pos (show ("quarterly" : String) = "quarterly" from rfl)]
    exact ⟨_, rfl, rfl, rfl⟩
  · rw [show billingFrequencies.find? (fun f => f.id == "half-yearly")
        = some ⟨"half-yearly", "Half Yearly", 6⟩ from rfl]
    rw [if_neg (show ¬ (("half-yearly" : String) = "monthly") by decide),
      if_neg (show ¬ (("half-yearly" : String) = "quarterly") by decide),
      if_pos (show ("half-yearly" : String) = "half-yearly" from rfl)]
    exact ⟨_, rfl, rfl, rfl⟩
  · rw [show billingFrequencies.find? (fun f => f.id == "yearly")
        = some ⟨"yearly", "Yearly", 12⟩ from rfl]
    rw [if_neg (show ¬ (("yearly" : String) = "monthly") by decide),
      if_neg (show ¬ (("yearly" : String) = "quarterly") by decide),
      if_neg (show ¬ (("yearly" : String) = "half-yearly") by decide)]
    exact ⟨_, rfl, rfl, rfl⟩

/-- Unshared yearly subscription of 1200, submitted through the create
form. -/
def fd1200 : FormData :=
  ⟨"Netflix", some 1200, some ⟨2025, 0, 1⟩, "yearly", 5, "Streaming", 3, false, none, 2⟩

theorem claim1_normalizer_witness :
    (∃ row, addHandleSubmit "u" fd1200 = .ok row ∧
      row.actual_amount = (if fd1200.isShared then 1200 / (fd1200.sharedWith : ℚ) else 1200) ∧
      row.amount = row.actual_amount /
        (if fd1200.billingFrequency = "monthly" then 1
          else if fd1200.billingFrequency = "quarterly" then 3
          else if fd1200.billingFrequency = "half-yearly" then 6 else 12)) ∧
    addHandleSubmit "u" fd1200 = .ok ⟨"u", "Netflix", 100, 1200, "yearly",
      some ⟨2025, 0, 1⟩, 5, "Streaming", 3, false, none, none⟩ :=
  ⟨claim1_normalizer "u" fd1200 1200 ⟨2025, 0, 1⟩ rfl (by norm_num) rfl
      (Or.inr (Or.inr (Or.inr rfl))),
    by with_unfolding_all rfl⟩

/-- Claim C2: every row assembled by the create handler and every update
payload assembled by the edit handler satisfies the data-model invariant:
the stored monthly-equivalent amount is the actual amount divided by the
stored frequency's month count, and for shared records the actual amount
is the stored total divided by the stored participant count. -/
theorem claim2_row_invariant :
    (∀ (uid : String) (fd : FormData) (row : SubscriptionRow),
      addHandleSubmit uid fd = .ok row →
        (∃ f ∈ billingFrequencies, f.id = row.billing_frequency ∧
          row.amount = row.actual_amount / f.months) ∧
        (row.is_shared = true → ∃ T n, row.total_amount = some T ∧
          row.shared_with = some n ∧ row.actual_amount = T / (n : ℚ))) ∧
    (∀ (fd : FormData) (ed : EditData),
      editHandleSubmit fd = .ok ed →
        (∃ f ∈ billingFrequencies, f.id = ed.billing_frequency ∧
          ed.amount = ed.actual_amount / f.months) ∧
        (ed.is_shared = true → ∃ T n, ed.total_amount = some T ∧
          ed.shared_with = some n ∧ ed.actual_amount = T / (n : ℚ))) := by
  constructor
  · intro uid fd row h
    unfold addHandleSubmit at h
    rcases hpa : parsedInputAmount fd with _ | a
    · simp [hpa] at h
    simp only [hpa] at h
    by_cases hle : a ≤ 0
    · rw [if_pos hle] at h
      exact absurd h (by simp)
    rw [if_neg hle] at h
    rcases hsd : fd.startDate with _ | sd
    · simp [hsd] at h
    simp only [hsd] at h
    rcases hf : billingFrequencies.find? (fun f => f.id == fd.billingFrequency) with _ | f
    · simp [hf] at h
    simp only [hf] at h
    have hid : f.id = fd.billingFrequency := by
      have := List.find?_some hf
      simpa using this
    injection h with hrow
    subst hrow
    refine ⟨⟨f, List.mem_of_find?_eq_some hf, hid, rfl⟩, ?_⟩
    intro hsh
    have hsh2 : fd.isShared = true := hsh
    exact ⟨a, fd.sharedWith, by simp [hsh2], by simp [hsh2], by simp [hsh2]⟩
  · intro fd ed h
    unfold editHandleSubmit at h
    rcases hpa : parsedInputAmount fd with _ | a
    · simp [hpa] at h
    simp only [hpa] at h
    by_cases hle : a ≤ 0
    · rw [if_pos hle] at h
      exact absurd h (by simp)
    rw [if_neg hle] at h
    rcases hf : billingFrequencies.find? (fun f => f.id == fd.billingFrequency) with _ | f
    · simp [hf] at h
    simp only [hf] at h
    have hid : f.id = fd.billingFrequency := by
      have := List.find?_some hf
      simpa using this
    injection h with hed
    subst hed
    refine ⟨⟨f, List.mem_of_find?_eq_some hf, hid, rfl⟩, ?_⟩
    intro hsh
    have hsh2 : fd.isShared = true := hsh
    exact ⟨a, fd.sharedWith, by simp [hsh2], by simp [hsh2], by simp [hsh2]⟩

/-- Shared subscription: total 900 split among 3 people, monthly. -/
def fd900 : FormData :=
  ⟨"Family Plan", none, some ⟨2025, 0, 1⟩, "monthly", 5, "Streaming", 3, true, some 900, 3⟩

def row900 : SubscriptionRow :=
  ⟨"u", "Family Plan", 300, 300, "monthly", some ⟨2025, 0, 1⟩, 5, "Streaming", 3,
    true, some 900, some 3⟩

theorem claim2_row_invariant_witness :
    ((∃ f ∈ billingFrequencies, f.id = row900.billing_frequency ∧
        row900.amount = row900.actual_amount / f.months) ∧
      (row900.is_shared = true → ∃ T n, row900.total_amount = some T ∧
        row900.shared_with = some n ∧ row900.actual_amount = T / (n : ℚ))) ∧
    row900.actual_amount = 300 ∧ row900.amount = 300 :=
  ⟨claim2_row_invariant.1 "u" fd900 row900 (by with_unfolding_all rfl),
    rfl, rfl⟩

/-- Claim C3: when the submitted amount parses to `NaN` or to a
non-positive value, both the create and the edit handler throw the
validation error before issuing any store request, so the stored list is
unchanged (no insert and no update). -/
theorem claim3_invalid_amount_rejected (store : List SubscriptionRow)
    (store2 : List (ℕ × SubscriptionRow)) (uid : String) (target : ℕ) (fd : FormData)
    (hbad : parsedInputAmount fd = none ∨ ∃ a, parsedInputAmount fd = some a ∧ a ≤ 0) :
    submitAddStore store uid fd = .error "Please enter a valid amount" ∧
    (∀ s, submitAddStore store uid fd ≠ .ok s) ∧
    submitEditStore store2 target fd = .error "Please enter a valid amount" ∧
    (∀ s, submitEditStore store2 target fd ≠ .ok s) := by
  rcases hbad with hnone | ⟨a, hsome, hle⟩
  · refine ⟨?_, ?_, ?_, ?_⟩ <;>
      simp [submitAddStore, submitEditStore, addHandleSubmit, editHandleSubmit, hnone]
  · refine ⟨?_, ?_, ?_, ?_⟩ <;>
      simp [submitAddStore, submitEditStore, addHandleSubmit, editHandleSubmit, hsome, hle]

/-- Form states with an unparsable amount and with a negative amount. -/
def fdAbc : FormData :=
  ⟨"Bad", none, some ⟨2025, 0, 1⟩, "monthly", 5, "Streaming", 3, false, none, 2⟩

def fdNeg : FormData :=
  ⟨"Bad", some (-5), some ⟨2025, 0, 1⟩, "monthly", 5, "Streaming", 3, false, none, 2⟩

theorem claim3_invalid_amount_rejected_witness :
    (submitAddStore [] "u" fdAbc = .error "Please enter a valid amount" ∧
      (∀ s, submitAddStore [] "u" fdAbc ≠ .ok s) ∧
      submitEditStore [] 0 fdAbc = .error "Please enter a valid amount" ∧
      (∀ s, submitEditStore [] 0 fdAbc ≠ .ok s)) ∧
    (submitAddStore [] "u" fdNeg = .error "Please enter a valid amount" ∧
      (∀ s, submitAddStore [] "u" fdNeg ≠ .ok s) ∧
      submitEditStore [] 0 fdNeg = .error "Please enter a valid amount" ∧
      (∀ s, submitEditStore [] 0 fdNeg ≠ .ok s)) :=
  ⟨claim3_invalid_amount_rejected [] [] "u" 0 fdAbc (Or.inl rfl),
    claim3_invalid_amount_rejected [] [] "u" 0 fdNeg
      (Or.inr ⟨-5, rfl, by norm_num⟩)⟩

/-- Claim C9: the `≥ 2` floor on a shared subscription's participant count
lives only in the form input: both submit handlers accept every
participant count (the quantified `fd.sharedWith` below, including values
below 2) without a validation error, and the row they produce satisfies
every schema constraint, because the migrations add `shared_with` as a
bare nullable integer column with no `CHECK`. -/
theorem claim9_shared_with_unvalidated (uid : String) (fd : FormData) (a : ℚ) (sd : Date)
    (hsh : fd.isShared = true) (hta : fd.totalAmount = some a) (ha : 0 < a)
    (hsd : fd.startDate = some sd)
    (hbf : (billingFrequencies.find? (fun f => f.id == fd.billingFrequency)).isSome)
    (hb1 : 1 ≤ fd.billingDate) (hb31 : fd.billingDate ≤ 31) :
    ∃ row, addHandleSubmit uid fd = .ok row ∧ row.shared_with = some fd.sharedWith ∧
      rowSatisfiesSchema row ∧
      ∃ ed, editHandleSubmit fd = .ok ed ∧ ed.shared_with = some fd.sharedWith := by
  obtain ⟨f, hf⟩ := Option.isSome_iff_exists.mp hbf
  have hpa : parsedInputAmount fd = some a := by
    unfold parsedInputAmount
    rw [hsh, if_pos rfl, hta]
  unfold addHandleSubmit editHandleSubmit
  simp only [hpa, hsd, hf, if_neg (not_le.mpr ha)]
  refine ⟨_, rfl, by simp [hsh], ⟨hb1, hb31⟩, _, rfl, by simp [hsh]⟩

/-- Shared form state with a participant count of 1 (below the form's
floor of 2). -/
def fdOne : FormData :=
  ⟨"Solo", none, some ⟨2025, 0, 1⟩, "monthly", 5, "Streaming", 3, true, some 100, 1⟩

theorem claim9_shared_with_unvalidated_witness :
    ∃ row, addHandleSubmit "u" fdOne = .ok row ∧ row.shared_with = some fdOne.sharedWith ∧
      rowSatisfiesSchema row ∧
      ∃ ed, editHandleSubmit fdOne = .ok ed ∧ ed.shared_with = some fdOne.sharedWith :=
  claim9_shared_with_unvalidated "u" fdOne 100 ⟨2025, 0, 1⟩ rfl rfl (by norm_num) rfl
    (by with_unfolding_all rfl) (by decide) (by decide)

theorem sortByKey_perm {α : Type} (key : α → ℤ) (l : List α) :
    List.Perm (sortByKey key l) l :=
  List.perm_insertionSort _ l

theorem sortByKey_sorted {α : Type} (key : α → ℤ) (l : List α) :
    (sortByKey key l).Sorted (fun a b => key a ≤ key b) := by
  haveI : IsTotal α (fun a b => key a ≤ key b) := ⟨fun a b => Int.le_total _ _⟩
  haveI : IsTrans α (fun a b => key a ≤ key b) := ⟨fun _ _ _ h h2 => le_trans h h2⟩
  exact List.sorted_insertionSort _ l

/-- The head of the key-sorted list is an element of the original list
whose key is minimal, and the sorted list is empty only for the empty
input. -/
theorem sortByKey_head_spec {α : Type} (key : α → ℤ) (l : List α) :
    ((sortByKey key l).head? = none ↔ l = []) ∧
    (∀ x, (sortByKey key l).head? = some x → x ∈ l ∧ ∀ y ∈ l, key x ≤ key y) := by
  have hperm := sortByKey_perm key l
  have hsort := sortByKey_sorted key l
  cases hs : sortByKey key l with
  | nil =>
    rw [hs] at hperm
    have hl : l = [] := hperm.symm.eq_nil
    subst hl
    exact ⟨by simp, fun x hx => by simp at hx⟩
  | cons a t =>
    rw [hs] at hperm hsort
    constructor
    · constructor
      · intro hcontr
        simp at hcontr
      · intro hl
        subst hl
        exact absurd hperm.eq_nil (by simp)
    · intro x hx
      simp only [List.head?_cons, Option.some.injEq] at hx
      subst hx
      constructor
      · exact hperm.mem_iff.mp (List.mem_cons_self _ _)
      · intro y hy
        have hy2 : y ∈ a :: t := hperm.mem_iff.mpr hy
        rcases List.mem_cons.mp hy2 with h | h
        · exact h ▸ le_refl _
        · exact List.rel_of_sorted_cons hsort y h

attribute [irreducible] sortByKey

/-- Claim C6: both dashboards' next-due computations report `null` exactly
for the empty subscription list, and otherwise return a subscription from
the list paired with its projected next-billing date, whose projected date
is minimal (in timestamp order) among all subscriptions' projections. -/
theorem claim6_next_due (subs : List Subscription) (today : Instant) :
    (getNextDueSubscription subs today = none ↔ subs = []) ∧
    (∀ p, getNextDueSubscription subs today = some p →
      p.1 ∈ subs ∧ p.2 = calculateNextBillingDate p.1 today ∧
      ∀ s ∈ subs, dateKey p.2 ≤ dateKey (calculateNextBillingDate s today)) ∧
    (homeGetNextDueSubscription subs today = none ↔ subs = []) ∧
    (∀ p, homeGetNextDueSubscription subs today = some p →
      p.1 ∈ subs ∧ p.2 = homeCalculateNextBillingDate p.1.billing_date today ∧
      ∀ s ∈ subs, dateKey p.2 ≤ dateKey (homeCalculateNextBillingDate s.billing_date today)) := by
  cases subs with
  | nil =>
    refine ⟨by simp [getNextDueSubscription], ?_, by simp [homeGetNextDueSubscription], ?_⟩ <;>
      intro p hp <;> simp [getNextDueSubscription, homeGetNextDueSubscription] at hp
  | cons s0 rest =>
    have hmain : ∀ (f : Subscription → Date) (p : Subscription × Date),
        ((sortByKey (fun q => dateKey q.2)
            ((s0 :: rest).map fun s => (s, f s))).head? = some p) →
        p.1 ∈ s0 :: rest ∧ p.2 = f p.1 ∧
          ∀ s ∈ s0 :: rest, dateKey p.2 ≤ dateKey (f s) := by
      intro f p hp
      have hspec := (sortByKey_head_spec (fun q => dateKey q.2)
        ((s0 :: rest).map fun s => (s, f s))).2 p hp
      obtain ⟨hmem, hmin⟩ := hspec
      obtain ⟨s, hs, hps⟩ := List.mem_map.mp hmem
      refine ⟨?_, ?_, ?_⟩
      · rw [← hps]
        exact hs
      · rw [← hps]
      · intro t ht
        exact hmin (t, f t) (List.mem_map.mpr ⟨t, ht, rfl⟩)
    have hne : ∀ (f : Subscription → Date),
        (sortByKey (fun q => dateKey q.2)
            ((s0 :: rest).map fun s => (s, f s))).head? ≠ none := by
      intro f hnone
      have := ((sortByKey_head_spec (fun q => dateKey q.2)
        ((s0 :: rest).map fun s => (s, f s))).1).mp hnone
      simp at this
    refine ⟨?_, ?_, ?_, ?_⟩
    · unfold getNextDueSubscription
      simp only [iff_false, reduceCtorEq]
      exact fun h => hne _ h
    · intro p hp
      exact hmain _ p hp
    · unfold homeGetNextDueSubscription
      simp only [iff_false, reduceCtorEq]
      exact fun h => hne _ h
    · intro p hp
      exact hmain _ p hp

/-- Two monthly subscriptions for the next-due example. -/
def s6a : Subscription := ⟨"a", "A", 10, 10, "monthly", ⟨2026, 0, 20⟩, 20, "Music", 3⟩

def s6b : Subscription := ⟨"b", "B", 20, 20, "monthly", ⟨2026, 0, 5⟩, 5, "News", 3⟩

def t6 : Instant := ⟨⟨2026, 9, 12⟩, 50⟩

theorem claim6_next_due_witness :
    (s6a, (⟨2026, 9, 20⟩ : Date)).1 ∈ [s6a, s6b] ∧
    (s6a, (⟨2026, 9, 20⟩ : Date)).2 = calculateNextBillingDate s6a t6 ∧
    ∀ s ∈ [s6a, s6b],
      dateKey (s6a, (⟨2026, 9, 20⟩ : Date)).2 ≤ dateKey (calculateNextBillingDate s t6) :=
  (claim6_next_due [s6a, s6b] t6).2.1 (s6a, ⟨2026, 9, 20⟩) (by with_unfolding_all rfl)

/-- The subscription and instant on which the two projector variants
disagree: a yearly subscription started June 15, 2024, seen on
October 12, 2026. -/
def c10sub : Subscription :=
  ⟨"c10", "Yearly plan", 100, 1200, "yearly", ⟨2024, 5, 15⟩, 15, "Software", 3⟩

def c10today : Instant := ⟨⟨2026, 9, 12⟩, 100⟩

/-- Counterexample to claim C10: on a yearly subscription the
start-date-anchored stepping variant returns June 15, 2027, while the
anchor-only variant returns October 15, 2026. -/
theorem claim10_variants_counterexample :
    calculateNextBillingDate c10sub c10today = ⟨2027, 5, 15⟩ ∧
    homeCalculateNextBillingDate c10sub.billing_date c10today = ⟨2026, 9, 15⟩ ∧
    calculateNextBillingDate c10sub c10today ≠
      homeCalculateNextBillingDate c10sub.billing_date c10today := by
  refine ⟨by with_unfolding_all rfl, by with_unfolding_all rfl, ?_⟩
  intro h
  rw [show calculateNextBillingDate c10sub c10today = ⟨2027, 5, 15⟩ from by
        with_unfolding_all rfl,
      show homeCalculateNextBillingDate c10sub.billing_date c10today = ⟨2026, 9, 15⟩ from by
        with_unfolding_all rfl] at h
  simp at h

/-- Claim C10 (amended): the two projector variants agree for
monthly-frequency subscriptions whose anchor day is at most 28, whose
anchored start month is not after today's month, and when today is not
exactly the midnight of the anchor day; in general (quantifying over all
subscriptions and instants, e.g. for yearly frequency) they differ. -/
theorem claim10_variants_agree_monthly (sub : Subscription) (today : Instant)
    (hbf : sub.billing_frequency = "monthly")
    (h1 : 1 ≤ sub.billing_date) (h28 : sub.billing_date ≤ 28)
    (hstart : monthIdx sub.start_date ≤ monthIdx today.date)
    (hmid : ¬ (today.date.day = sub.billing_date ∧ today.ms = 0)) :
    calculateNextBillingDate sub today =
      homeCalculateNextBillingDate sub.billing_date today := by
  unfold calculateNextBillingDate homeCalculateNextBillingDate
  rw [hbf, show frequencyMonths "monthly" = 1 from rfl]
  rw [mkDate_of_day_le_28 _ _ _ h28]
  rw [billingLoop_monthly _ today _ sub.billing_date rfl h1 h28 ?_ ?_ ?_ ?_]
  · rw [mkDate_of_day_le_28 _ _ _ h28, mkDate_of_day_le_28 _ _ _ h28]
    have hidx : (today.date.year * 12 + today.date.month) = monthIdx today.date := rfl
    rw [show today.date.year * 12 + (today.date.month + 1)
        = monthIdx today.date + 1 from by unfold monthIdx; ring]
    rw [hidx]
    by_cases hcmp : today.date.day < sub.billing_date
    · rw [if_pos hcmp, if_neg ?_]
      unfold midnightLt
      rw [monthIdx_mkIdxDate]
      simp only [mkIdxDate]
      omega
    · rw [if_neg hcmp, if_pos ?_]
      unfold midnightLt
      rw [monthIdx_mkIdxDate]
      simp only [mkIdxDate]
      have hne2 : today.date.day ≠ sub.billing_date ∨ today.ms ≠ 0 := by
        by_contra hc
        push_neg at hc
        exact hmid ⟨hc.1, hc.2⟩
      rcases hne2 with h | h
      · exact Or.inr ⟨trivial, Or.inl (lt_of_le_of_ne (not_lt.mp hcmp) (Ne.symm h))⟩
      · rcases eq_or_lt_of_le (not_lt.mp hcmp) with heq | hlt
        · exact Or.inr ⟨trivial, Or.inr ⟨heq, Nat.pos_of_ne_zero h⟩⟩
        · exact Or.inr ⟨trivial, Or.inl hlt⟩
  · simp only [mkIdxDate]
    omega
  · simp only [mkIdxDate]
    omega
  · rw [monthIdx_mkIdxDate]
    exact hstart
  · rw [monthIdx_mkIdxDate]
    unfold fuelFor
    rw [monthIdx_mkIdxDate]
    exact Int.self_le_toNat _

theorem claim10_variants_agree_monthly_witness :
    calculateNextBillingDate s6a t6 = homeCalculateNextBillingDate s6a.billing_date t6 :=
  claim10_variants_agree_monthly s6a t6 rfl (by decide) (by decide) (by decide)
    (by decide)

end SubMgr
